import Mathlib

/-!
Verification of the PhoneSync / VideoProcessor incremental reconciliation and
organization engine.  The Python modules under `VideoProcessor/modules/` are
shallowly embedded as executable Lean definitions: strings are `String`
(manipulated char-wise through `List Char` to keep every function structurally
recursive and kernel-evaluable), Python `datetime` values are the record
`PyDateTime` of six natural-number fields compared lexicographically, the
filesystem is passed in explicitly (directory listings as lists of names,
existence tests as boolean functions), and Python functions that can raise are
embedded with `Option`.
-/

namespace PhoneSync

/-! ### Character and string helpers -/

/-- One step of `splitOnChar`: accumulates the current field (reversed). -/
def splitOnCharAux (sep : Char) : List Char → List Char → List String
  | [], acc => [String.mk acc.reverse]
  | c :: rest, acc =>
    if c == sep then String.mk acc.reverse :: splitOnCharAux sep rest []
    else splitOnCharAux sep rest (c :: acc)

/-- Python `str.split(sep)` for a one-character separator:
`"a_b".split('_') = ["a","b"]`, `"".split('_') = [""]`. -/
def splitOnChar (sep : Char) (s : String) : List String :=
  splitOnCharAux sep s.data []

/-- Index of the last occurrence of `c` in `cs` (Python `str.rfind`). -/
def lastIdxOf (c : Char) (cs : List Char) : Option Nat :=
  (cs.foldl (fun (st : Nat × Option Nat) ch =>
    (st.1 + 1, if ch == c then some st.1 else st.2)) (0, none)).2

/-- Python `pathlib.Path(name).stem` for a bare file name: the name up to its last
dot, provided that dot is neither the first nor the last character. -/
def stemL (cs : List Char) : List Char :=
  match lastIdxOf '.' cs with
  | some i => if 0 < i ∧ i + 1 < cs.length then cs.take i else cs
  | none => cs

/-- Python `pathlib.Path(name).suffix` for a bare file name (includes the dot). -/
def suffixL (cs : List Char) : List Char :=
  match lastIdxOf '.' cs with
  | some i => if 0 < i ∧ i + 1 < cs.length then cs.drop i else []
  | none => []

/-- String-valued stem. -/
def strStem (s : String) : String := String.mk (stemL s.data)

/-- String-valued suffix (extension with leading dot, possibly empty). -/
def strSuffix (s : String) : String := String.mk (suffixL s.data)

/-- Python `os.path.basename` for forward-slash paths: the part after the last `/`. -/
def baseNamePath (s : String) : String :=
  match lastIdxOf '/' s.data with
  | some i => String.mk (s.data.drop (i + 1))
  | none => s

/-- Python `os.path.join a b` for forward-slash paths. -/
def pathJoin (a b : String) : String := a ++ "/" ++ b

/-- Numeric value of a list of decimal digit characters (leading zeros fine). -/
def natOfDigits (cs : List Char) : Nat :=
  cs.foldl (fun n c => n * 10 + (c.toNat - 48)) 0

/-- Numeric value of a digit string such as a regex capture group. -/
def natOfStr (s : String) : Nat := natOfDigits s.data

/-- Python `int(s)` restricted to an optional sign followed by decimal digits;
`none` models the `ValueError` raised on anything else. -/
def parseIntStr (s : String) : Option Int :=
  let core : List Char → Option Int := fun ds =>
    if ds ≠ [] ∧ ds.all Char.isDigit then some (natOfDigits ds : Int) else none
  match s.data with
  | '-' :: ds => (core ds).map (fun n => -n)
  | '+' :: ds => core ds
  | ds => core ds

/-- Zero-padded decimal rendering, as produced by `strftime` width fields. -/
def padNum (width n : Nat) : String :=
  let s := toString n
  if s.length < width then String.mk (List.replicate (width - s.length) '0') ++ s
  else s

/-! ### Python datetime model

Naive `datetime` values compare field-lexicographically; microseconds are not
modelled (no claim depends on them). -/

/-- Python `datetime.datetime` (year, month, day, hour, minute, second). -/
structure PyDateTime where
  year : Nat
  month : Nat
  day : Nat
  hour : Nat
  minute : Nat
  second : Nat
deriving DecidableEq, Repr

/-- Python `datetime.date`. -/
structure PyDate where
  year : Nat
  month : Nat
  day : Nat
deriving DecidableEq, Repr

/-- Python `datetime.time` (hour, minute, second). -/
structure PyTime where
  hour : Nat
  minute : Nat
  second : Nat
deriving DecidableEq, Repr

/-- Projection `datetime.date()` of a datetime. -/
def PyDateTime.dateOf (d : PyDateTime) : PyDate := ⟨d.year, d.month, d.day⟩

/-- Projection `datetime.time()` of a datetime. -/
def PyDateTime.timeOf (d : PyDateTime) : PyTime := ⟨d.hour, d.minute, d.second⟩

/-- Strict `<` on datetimes (lexicographic, as in Python). -/
def dtLtB (a b : PyDateTime) : Bool :=
  decide (a.year < b.year) || (decide (a.year = b.year) &&
    (decide (a.month < b.month) || (decide (a.month = b.month) &&
      (decide (a.day < b.day) || (decide (a.day = b.day) &&
        (decide (a.hour < b.hour) || (decide (a.hour = b.hour) &&
          (decide (a.minute < b.minute) || (decide (a.minute = b.minute) &&
            decide (a.second < b.second))))))))))

/-- Order `≤` on datetimes. -/
def dtLeB (a b : PyDateTime) : Bool := dtLtB a b || decide (a = b)

/-- Strict `<` on dates. -/
def dateLtB (a b : PyDate) : Bool :=
  decide (a.year < b.year) || (decide (a.year = b.year) &&
    (decide (a.month < b.month) || (decide (a.month = b.month) &&
      decide (a.day < b.day))))

/-- Order `≤` on dates. -/
def dateLeB (a b : PyDate) : Bool := dateLtB a b || decide (a = b)

/-- Order `≤` on times (lexicographic). -/
def timeLeB (a b : PyTime) : Bool :=
  decide (a.hour < b.hour) || (decide (a.hour = b.hour) &&
    (decide (a.minute < b.minute) || (decide (a.minute = b.minute) &&
      decide (a.second ≤ b.second))))

/-- Day of week with Monday = 0 … Sunday = 6 (Python `date.weekday()`),
computed with the standard civil-calendar day count. -/
def pyWeekday (y m d : Nat) : Nat :=
  let yy := y - (if m ≤ 2 then 1 else 0)
  let era := yy / 400
  let yoe := yy - era * 400
  let mp := if m > 2 then m - 3 else m + 9
  let doy := (153 * mp + 2) / 5 + (d - 1)
  let doe := yoe * 365 + yoe / 4 - yoe / 100 + doy
  (era * 146097 + doe + 2) % 7

/-- Weekday names of `strftime` directive `%a`, indexed by Python weekday. -/
def weekdayName (w : Nat) : String :=
  ["Mon", "Tue", "Wed", "Thu", "Fri", "Sat", "Sun"].getD w "Mon"

/-- Python `strftime` with format `%Y_%m_%d`. -/
def formatYMDUnderscore (d : PyDateTime) : String :=
  padNum 4 d.year ++ "_" ++ padNum 2 d.month ++ "_" ++ padNum 2 d.day

/-- Python `datetime.isoformat()` with zero microseconds: `YYYY-MM-DDTHH:MM:SS`. -/
def isoStr (d : PyDateTime) : String :=
  padNum 4 d.year ++ "-" ++ padNum 2 d.month ++ "-" ++ padNum 2 d.day ++ "T" ++
    padNum 2 d.hour ++ ":" ++ padNum 2 d.minute ++ ":" ++ padNum 2 d.second

/-- Whether `y` is a Gregorian leap year. -/
def isLeapYear (y : Nat) : Bool :=
  (y % 4 == 0 && y % 100 != 0) || y % 400 == 0

/-- Number of days in month `m` of year `y`. -/
def daysInMonth (y m : Nat) : Nat :=
  if m = 2 then (if isLeapYear y then 29 else 28)
  else if m = 4 ∨ m = 6 ∨ m = 9 ∨ m = 11 then 30
  else 31

/-- Whether `datetime(y, m, d, h, mi, s)` constructs without `ValueError`. -/
def validDateTime (y m d h mi s : Nat) : Bool :=
  1 ≤ y && y ≤ 9999 && 1 ≤ m && m ≤ 12 && 1 ≤ d && d ≤ daysInMonth y m &&
    h ≤ 23 && mi ≤ 59 && s ≤ 59

/-! ### Deduplication manager (`modules/deduplication.py`) -/

/-- The configuration toggles read by `DeduplicationManager`. -/
structure DedupOptions where
  enable_deduplication : Bool
  force_recopy_if_newer : Bool
deriving DecidableEq, Repr

/-- One value of the `existing_files_cache`: the file info dictionary built by
`build_cache` / `update_cache_with_new_file`, together with the
`filename|size` key components it is stored under. -/
structure CacheEntry where
  filename : String
  size : Nat
  path : String
  last_write_time : PyDateTime
  directory : String
  date_pattern : Option String
  full_directory_name : String
deriving DecidableEq, Repr

/-- Take exactly `n` decimal digits from the front of `cs`. -/
def takeDigitsN : Nat → List Char → Option (List Char × List Char)
  | 0, cs => some ([], cs)
  | _ + 1, [] => none
  | n + 1, c :: cs =>
    if c.isDigit then
      (takeDigitsN n cs).map (fun pr => (c :: pr.1, pr.2))
    else none

/-- Embeds `_extract_date_pattern`: the regex `^(\d{4}_\d{2}_\d{2})` applied to a
directory name, returning the 10-character match. -/
def extract_date_pattern (directory_name : String) : Option String :=
  match takeDigitsN 4 directory_name.data with
  | some (g1, '_' :: r1) =>
    match takeDigitsN 2 r1 with
    | some (g2, '_' :: r2) =>
      match takeDigitsN 2 r2 with
      | some (g3, _) => some (String.mk (g1 ++ '_' :: g2 ++ '_' :: g3))
      | none => none
    | _ => none
  | _ => none

/-- The anchored match of `^(\d{4}\d{2}\d{2}_\d{6}_\d+)` against a stem: the
captured prefix (8 digits, `_`, 6 digits, `_`, a maximal nonempty digit run),
or `none` when the stem does not start with that shape. -/
def matchDateStemPrefix (cs : List Char) : Option (List Char) :=
  match takeDigitsN 8 cs with
  | some (g1, '_' :: r1) =>
    match takeDigitsN 6 r1 with
    | some (g2, '_' :: r2) =>
      let run := r2.takeWhile Char.isDigit
      if run = [] then none
      else some (g1 ++ '_' :: g2 ++ '_' :: run)
    | _ => none
  | _ => none

/-- Embeds `_extract_base_filename_pattern`: the `YYYYMMDD_HHMMSS_N` prefix of the
stem when present, otherwise the whole stem.  (The `None` branch of the Python function
is unreachable: a string is always returned.) -/
def extract_base_filename_pattern (filename : String) : String :=
  let stem := stemL filename.data
  match matchDateStemPrefix stem with
  | some base => String.mk base
  | none => String.mk stem

/-- Python `remaining.startswith('_')` on a char list. -/
def startsWithUnderscore : List Char → Bool
  | [] => false
  | c :: _ => c == '_'

/-- Embeds `_filenames_match_flexible`. -/
def filenames_match_flexible (source_filename target_filename base_pattern : String) : Bool :=
  let source_stem := stemL source_filename.data
  let target_stem := stemL target_filename.data
  if source_stem == target_stem then true
  else if base_pattern.data.isPrefixOf target_stem then
    let remaining := target_stem.drop base_pattern.data.length
    startsWithUnderscore remaining || remaining == []
  else false

/-- The per-entry `match_found` test inside `file_exists_in_target`: date
patterns agree when both are present, otherwise fall back to exact directory
equality. -/
def dedup_match_found (expected : Option String) (target_directory : String)
    (e : CacheEntry) : Bool :=
  match expected with
  | some exp =>
    match e.date_pattern with
    | some ep => ep == exp
    | none => e.directory == target_directory
  | none => e.directory == target_directory

/-- The `for existing_file in all_matches` loop of `file_exists_in_target`:
the first directory-agreeing entry decides (newer source forces a recopy when
`force_recopy_if_newer` is set). -/
def exists_scan (opts : DedupOptions) (expected : Option String)
    (target_directory : String) (file_date : PyDateTime) : List CacheEntry → Bool
  | [] => false
  | e :: rest =>
    if dedup_match_found expected target_directory e then
      if opts.force_recopy_if_newer && dtLtB e.last_write_time file_date then false
      else true
    else exists_scan opts expected target_directory file_date rest

/-- Embeds `_find_flexible_filename_matches` (size must agree; names match
flexibly against the base pattern). -/
def find_flexible_filename_matches (cache : List CacheEntry)
    (source_filename : String) (file_size : Nat) : List CacheEntry :=
  let base_pattern := extract_base_filename_pattern source_filename
  if base_pattern == "" then []
  else cache.filter (fun e =>
    e.size == file_size && filenames_match_flexible source_filename e.filename base_pattern)

/-- Embeds `file_exists_in_target`. -/
def file_exists_in_target (opts : DedupOptions) (cache : List CacheEntry)
    (filename : String) (file_size : Nat) (file_date : PyDateTime)
    (target_directory : String) : Bool :=
  if !opts.enable_deduplication then false
  else
    let exact_matches := cache.filter (fun e =>
      e.filename == filename && e.size == file_size)
    let flexible_matches := find_flexible_filename_matches cache filename file_size
    let all_matches := exact_matches ++ flexible_matches
    if all_matches.isEmpty then false
    else
      let expected := extract_date_pattern (baseNamePath target_directory)
      exists_scan opts expected target_directory file_date all_matches

/-- Embeds `find_existing_date_folder`: the first immediate subdirectory of
`base_path` whose name matches `^pattern(_.*)?$`; `subdirs` is the
`os.listdir` result restricted to directories. -/
def find_existing_date_folder (subdirs : List String) (base_path pattern : String) :
    Option String :=
  (subdirs.find? (fun item =>
    item == pattern || (pattern ++ "_").data.isPrefixOf item.data)).map
    (pathJoin base_path)

/-! ### File scanner date extraction (`modules/file_scanner.py`)

Each regex in `FileScanner.date_patterns` is embedded as a direct matcher
returning the capture groups of the leftmost match (`re.search`), or `none`.
All patterns are backtracking-free over fixed-width pieces except the optional
`(?:_\d+)?\.` tail of the first, whose greedy semantics reduce to: the maximal
digit run after the underscore must be nonempty and followed by a dot. -/

/-- Does `cs` begin with `.`, satisfying the final `\.` of pattern 1? -/
def p1TailDot : List Char → Bool
  | '.' :: _ => true
  | _ => false

/-- The `(?:_\d+)?\.` tail of pattern 1. -/
def p1Tail (cs : List Char) : Bool :=
  if p1TailDot cs then true
  else
    match cs with
    | '_' :: r =>
      let run := r.takeWhile Char.isDigit
      decide (run ≠ []) && p1TailDot (r.drop run.length)
    | _ => false

/-- Anchored matcher for `^(\d{4})(\d{2})(\d{2})_(\d{2})(\d{2})(\d{2})(?:_\d+)?\.`. -/
def matchP1 (cs : List Char) : Option (List String) :=
  match takeDigitsN 4 cs with
  | some (g1, r1) =>
    match takeDigitsN 2 r1 with
    | some (g2, r2) =>
      match takeDigitsN 2 r2 with
      | some (g3, '_' :: r3) =>
        match takeDigitsN 2 r3 with
        | some (g4, r4) =>
          match takeDigitsN 2 r4 with
          | some (g5, r5) =>
            match takeDigitsN 2 r5 with
            | some (g6, r6) =>
              if p1Tail r6 then
                some [String.mk g1, String.mk g2, String.mk g3,
                      String.mk g4, String.mk g5, String.mk g6]
              else none
            | none => none
          | none => none
        | none => none
      | _ => none
    | none => none
  | none => none

/-- At-position matcher for `(\d{4})sep(\d{2})sep(\d{2})` (patterns 2 and 3). -/
def matchYsMsD (sep : Char) (cs : List Char) : Option (List String) :=
  match takeDigitsN 4 cs with
  | some (g1, c1 :: r1) =>
    if c1 == sep then
      match takeDigitsN 2 r1 with
      | some (g2, c2 :: r2) =>
        if c2 == sep then
          match takeDigitsN 2 r2 with
          | some (g3, _) => some [String.mk g1, String.mk g2, String.mk g3]
          | none => none
        else none
      | _ => none
    else none
  | _ => none

/-- Anchored matcher for `^(\d{4})(\d{2})(\d{2})(?:[_-]|$)` (pattern 4). -/
def matchP4 (cs : List Char) : Option (List String) :=
  match takeDigitsN 4 cs with
  | some (g1, r1) =>
    match takeDigitsN 2 r1 with
    | some (g2, r2) =>
      match takeDigitsN 2 r2 with
      | some (g3, rest) =>
        match rest with
        | [] => some [String.mk g1, String.mk g2, String.mk g3]
        | c :: _ =>
          if c == '_' || c == '-' then
            some [String.mk g1, String.mk g2, String.mk g3]
          else none
      | none => none
    | none => none
  | none => none

/-- Uppercase ASCII letter test (`[A-Z]`). -/
def isUpperAZ (c : Char) : Bool := decide ('A' ≤ c) && decide (c ≤ 'Z')

/-- At-position matcher for
`[A-Z]{3}_(\d{4})(\d{2})(\d{2})[_-](\d{2})(\d{2})(\d{2})` (pattern 5). -/
def matchP5 (cs : List Char) : Option (List String) :=
  match cs with
  | a :: b :: c :: '_' :: r0 =>
    if isUpperAZ a && isUpperAZ b && isUpperAZ c then
      match takeDigitsN 4 r0 with
      | some (g1, r1) =>
        match takeDigitsN 2 r1 with
        | some (g2, r2) =>
          match takeDigitsN 2 r2 with
          | some (g3, s :: r3) =>
            if s == '_' || s == '-' then
              match takeDigitsN 2 r3 with
              | some (g4, r4) =>
                match takeDigitsN 2 r4 with
                | some (g5, r5) =>
                  match takeDigitsN 2 r5 with
                  | some (g6, _) =>
                    some [String.mk g1, String.mk g2, String.mk g3,
                          String.mk g4, String.mk g5, String.mk g6]
                  | none => none
                | none => none
              | none => none
            else none
          | _ => none
        | none => none
      | none => none
    else none
  | _ => none

/-- At-position matcher for `(\d{2})(\d{2})(\d{4})` (pattern 6). -/
def matchMMDDYYYY (cs : List Char) : Option (List String) :=
  match takeDigitsN 2 cs with
  | some (g1, r1) =>
    match takeDigitsN 2 r1 with
    | some (g2, r2) =>
      match takeDigitsN 4 r2 with
      | some (g3, _) => some [String.mk g1, String.mk g2, String.mk g3]
      | none => none
    | none => none
  | none => none

/-- At-position matcher for `(\d{2})sep(\d{2})sep(\d{4})` (patterns 7 and 8). -/
def matchMsDsY (sep : Char) (cs : List Char) : Option (List String) :=
  match takeDigitsN 2 cs with
  | some (g1, c1 :: r1) =>
    if c1 == sep then
      match takeDigitsN 2 r1 with
      | some (g2, c2 :: r2) =>
        if c2 == sep then
          match takeDigitsN 4 r2 with
          | some (g3, _) => some [String.mk g1, String.mk g2, String.mk g3]
          | none => none
        else none
      | _ => none
    else none
  | _ => none

/-- Python `re.search` for an unanchored pattern: try the at-position matcher at
every start position, leftmost first. -/
def searchAll (f : List Char → Option (List String)) : List Char → Option (List String)
  | [] => f []
  | cs@(_ :: rest) =>
    match f cs with
    | some g => some g
    | none => searchAll f rest

/-- The ordered pattern list of `FileScanner.date_patterns`. -/
inductive ScanPattern
  | p1 | p2 | p3 | p4 | p5 | p6 | p7 | p8
deriving DecidableEq, Repr

/-- Embeds `FileScanner.date_patterns`, most specific first. -/
def date_patterns : List ScanPattern :=
  [.p1, .p2, .p3, .p4, .p5, .p6, .p7, .p8]

/-- Python `re.search(pattern, filename)` returning the groups of the leftmost
match; anchored patterns (1 and 4) match only at the start. -/
def pattern_search (p : ScanPattern) (filename : String) : Option (List String) :=
  match p with
  | .p1 => matchP1 filename.data
  | .p2 => searchAll (matchYsMsD '_') filename.data
  | .p3 => searchAll (matchYsMsD '-') filename.data
  | .p4 => matchP4 filename.data
  | .p5 => searchAll matchP5 filename.data
  | .p6 => searchAll matchMMDDYYYY filename.data
  | .p7 => searchAll (matchMsDsY '-') filename.data
  | .p8 => searchAll (matchMsDsY '_') filename.data

/-- The validation-and-construction block of `_extract_date_from_filename`:
year/month/day ordering by the width of the first group, range checks, time
checks for six-group patterns, and the `datetime(...)` constructor whose
`ValueError` (e.g. April 31) is caught and turned into `none`. -/
def validateGroups (groups : List String) : Option PyDateTime :=
  if groups.length ≥ 3 then
    let g0 := groups.getD 0 ""
    let g1 := groups.getD 1 ""
    let g2 := groups.getD 2 ""
    let ymd : Nat × Nat × Nat :=
      if g0.length == 4 then (natOfStr g0, natOfStr g1, natOfStr g2)
      else (natOfStr g2, natOfStr g0, natOfStr g1)
    let y := ymd.1; let m := ymd.2.1; let d := ymd.2.2
    if 1900 ≤ y ∧ y ≤ 2100 ∧ 1 ≤ m ∧ m ≤ 12 ∧ 1 ≤ d ∧ d ≤ 31 then
      if groups.length ≥ 6 then
        let h := natOfStr (groups.getD 3 "")
        let mi := natOfStr (groups.getD 4 "")
        let s := natOfStr (groups.getD 5 "")
        if h ≤ 23 ∧ mi ≤ 59 ∧ s ≤ 59 then
          if validDateTime y m d h mi s then some ⟨y, m, d, h, mi, s⟩ else none
        else none
      else
        if validDateTime y m d 0 0 0 then some ⟨y, m, d, 0, 0, 0⟩ else none
    else none
  else none

/-- One iteration of the pattern loop: leftmost match of `p`, validated;
`none` both when the regex does not match and when the captured values are
rejected (the loop then continues with the next pattern). -/
def try_pattern (p : ScanPattern) (filename : String) : Option PyDateTime :=
  (pattern_search p filename).bind validateGroups

/-- Embeds `_extract_date_from_filename`: first pattern that matches and validates. -/
def extract_date_from_filename (filename : String) : Option PyDateTime :=
  date_patterns.findSome? (fun p => try_pattern p filename)

/-- The date used by `_extract_file_info`: extracted from the filename, or
the filesystem modification time. -/
def extracted_file_date (filename : String) (mtime : PyDateTime) : PyDateTime :=
  (extract_date_from_filename filename).getD mtime

/-! ### Wudan rules engine (`modules/wudan_rules.py`)

The configuration is modelled as already JSON-decoded and well-typed (day
lists of integers, time-range pairs of strings, the after-2021 table keyed by
day strings), which is the shape the production config loader hands over. -/

/-- One `{start, end}` time-range entry (the `end` key is `stop` here, since
`end` is reserved in Lean). -/
structure TimeRangeStr where
  start : String
  stop : String
deriving DecidableEq, Repr

/-- The `before_2021` epoch of `wudan_rules`. -/
structure WudanEpochBefore where
  days_of_week : List Int
  time_ranges : List TimeRangeStr
deriving DecidableEq, Repr

/-- The `after_2021` epoch of `wudan_rules`; `time_ranges` is keyed by the
JSON day string. -/
structure WudanEpochAfter where
  days_of_week : List Int
  time_ranges : List (String × List TimeRangeStr)
deriving DecidableEq, Repr

/-- The `wudan_rules` configuration block. -/
structure WudanRulesConfig where
  before_2021 : WudanEpochBefore
  after_2021 : WudanEpochAfter
deriving DecidableEq, Repr

/-- Embeds `_parse_time_string`: `HH:MM` into a `time(hour, minute)`; `none` models
the caught `ValueError` (wrong field count, non-integers, out-of-range
values). -/
def parse_time_string (time_str : String) : Option PyTime :=
  match splitOnChar ':' time_str with
  | [h, m] =>
    match parseIntStr h, parseIntStr m with
    | some hi, some mi =>
      if 0 ≤ hi ∧ hi ≤ 23 ∧ 0 ≤ mi ∧ mi ≤ 59 then
        some ⟨hi.toNat, mi.toNat, 0⟩
      else none
    | _, _ => none
  | _ => none

/-- Parse one time-range entry; entries with an unparseable endpoint are
dropped (`if start_time and end_time`). -/
def parseRangePair (tr : TimeRangeStr) : Option (PyTime × PyTime) :=
  match parse_time_string tr.start, parse_time_string tr.stop with
  | some a, some b => some (a, b)
  | _, _ => none

/-- The after-2021 half of `_parse_time_ranges`: `int(day_str)` raises out of
the loop (aborting engine construction), unparseable range endpoints are
dropped. -/
def parse_after_ranges : List (String × List TimeRangeStr) →
    Option (List (Int × List (PyTime × PyTime)))
  | [] => some []
  | (day_str, trs) :: rest =>
    match parseIntStr day_str, parse_after_ranges rest with
    | some dn, some r => some ((dn, trs.filterMap parseRangePair) :: r)
    | _, _ => none

/-- The parsed rules held by a constructed `WudanRulesEngine`. -/
structure ParsedRules where
  before_days : List Int
  before_ranges : List (PyTime × PyTime)
  after_days : List Int
  after_ranges : List (Int × List (PyTime × PyTime))
deriving DecidableEq, Repr

/-- Embeds `_parse_time_ranges`, run by `WudanRulesEngine.__init__`; `none` models
an exception escaping the constructor (the only source is `int(day_str)`). -/
def parse_time_ranges (cfg : WudanRulesConfig) : Option ParsedRules :=
  match parse_after_ranges cfg.after_2021.time_ranges with
  | some ar => some
    { before_days := cfg.before_2021.days_of_week
      before_ranges := cfg.before_2021.time_ranges.filterMap parseRangePair
      after_days := cfg.after_2021.days_of_week
      after_ranges := ar }
  | none => none

/-- Embeds `WudanRulesEngine.__init__`: store config and parse the time ranges. -/
def wudan_engine_init (cfg : WudanRulesConfig) : Option ParsedRules :=
  parse_time_ranges cfg

/-- Embeds `_time_in_range` (both ends inclusive). -/
def time_in_range (check_time start_time end_time : PyTime) : Bool :=
  timeLeB start_time check_time && timeLeB check_time end_time

/-- Embeds `_check_before_2021_rules`. -/
def check_before_2021_rules (rules : ParsedRules) (day_of_week : Int)
    (file_time : PyTime) : Bool :=
  if day_of_week ∈ rules.before_days then
    rules.before_ranges.any (fun pr => time_in_range file_time pr.1 pr.2)
  else false

/-- Embeds `_check_after_2021_rules`. -/
def check_after_2021_rules (rules : ParsedRules) (day_of_week : Int)
    (file_time : PyTime) : Bool :=
  if day_of_week ∈ rules.after_days then
    let day_time_ranges := (rules.after_ranges.lookup day_of_week).getD []
    if day_time_ranges.isEmpty then false
    else day_time_ranges.any (fun pr => time_in_range file_time pr.1 pr.2)
  else false

/-- Embeds `should_go_to_wudan_folder`: pick the epoch by calendar year and test the
PowerShell-convention weekday (Sunday = 0) and time of day. -/
def should_go_to_wudan_folder (rules : ParsedRules) (file_date : PyDateTime) : Bool :=
  let powershell_day_of_week : Int :=
    ((pyWeekday file_date.year file_date.month file_date.day + 1) % 7 : Nat)
  if file_date.year < 2021 then
    check_before_2021_rules rules powershell_day_of_week file_date.timeOf
  else
    check_after_2021_rules rules powershell_day_of_week file_date.timeOf

/-- Embeds `validate_rules_configuration` on a well-typed configuration: the
`isinstance` guards cannot fire, leaving the day-of-week range errors.  Note
that time-range strings are not examined at all. -/
def validate_rules_configuration (cfg : WudanRulesConfig) : List String :=
  let dayErrors := fun (rule_set_name : String) (days : List Int) =>
    days.filterMap (fun day =>
      if day < 0 ∨ day > 6 then
        some (rule_set_name ++ ": Invalid day of week " ++ toString day ++
          " (must be 0-6)")
      else none)
  dayErrors "before_2021" cfg.before_2021.days_of_week ++
    dayErrors "after_2021" cfg.after_2021.days_of_week

/-! ### Target path resolver (`modules/target_path_resolver.py`) -/

/-- The `target_paths` configuration block. -/
structure TargetPaths where
  pictures : String
  videos : String
  wudan : String
deriving DecidableEq, Repr

/-- The `file_extensions` configuration block. -/
structure FileExtensions where
  pictures : List String
  videos : List String
deriving DecidableEq, Repr

/-- Info dictionary of one scanned file (the fields the resolver and state
manager read). -/
structure FileInfo where
  path : String
  name : String
  extension : String
  ftype : String
  size : Nat
  date : PyDateTime
deriving DecidableEq, Repr

/-- Embeds `_determine_base_path`. -/
def determine_base_path (paths : TargetPaths) (exts : FileExtensions)
    (rules : ParsedRules) (file_type extension : String) (file_date : PyDateTime) :
    Option String :=
  if file_type == "picture" then
    if extension ∈ exts.pictures then some paths.pictures else none
  else if file_type == "video" then
    if extension ∈ exts.videos then
      if should_go_to_wudan_folder rules file_date then some paths.wudan
      else some paths.videos
    else none
  else none

/-- The Wudan date-folder pattern `strftime with format %Y_%m_%d_ plus the 3-letter weekday`. -/
def wudan_date_pattern (d : PyDateTime) : String :=
  formatYMDUnderscore d ++ "_" ++ weekdayName (pyWeekday d.year d.month d.day)

/-- Embeds `get_target_folder_path`.  `listdirOf base` models the directory-only
`os.listdir(base)` listing consulted by `find_existing_date_folder`
(`normpath` is the identity on the already-normalized paths modelled here). -/
def get_target_folder_path (paths : TargetPaths) (exts : FileExtensions)
    (rules : ParsedRules) (listdirOf : String → List String) (fi : FileInfo) :
    Option String :=
  match determine_base_path paths exts rules fi.ftype fi.extension fi.date with
  | none => none
  | some base_path =>
    let date_pattern :=
      if base_path == paths.wudan then wudan_date_pattern fi.date
      else formatYMDUnderscore fi.date
    match find_existing_date_folder (listdirOf base_path) base_path date_pattern with
    | some existing_folder => some existing_folder
    | none => some (pathJoin base_path date_pattern)

/-- The collision-probing loop of `_create_unique_filename`: try
`base_<counter>ext`, advancing while the probed path exists; when the attempt
budget is exhausted (counter would pass 9999) fall back to the
timestamp-suffixed name `base_<now>ext`. -/
def create_unique_loop (pexists : String → Bool) (target_folder base_name extension
    now_stamp : String) : Nat → Nat → String × String
  | counter, fuel =>
    let unique_filename := base_name ++ "_" ++ toString counter ++ extension
    let unique_file_path := pathJoin target_folder unique_filename
    if !pexists unique_file_path then (unique_file_path, unique_filename)
    else
      match fuel with
      | 0 =>
        let fallback_name := base_name ++ "_" ++ now_stamp ++ extension
        (pathJoin target_folder fallback_name, fallback_name)
      | fuel' + 1 =>
        create_unique_loop pexists target_folder base_name extension now_stamp
          (counter + 1) fuel'

/-- Embeds `_create_unique_filename`: counters 1 through 9999 are probed, then the
timestamp fallback; `now_stamp` stands for `the strftime timestamp format %Y%m%d_%H%M%S_%f`. -/
def create_unique_filename (pexists : String → Bool)
    (target_folder original_filename now_stamp : String) : String × String :=
  create_unique_loop pexists target_folder (strStem original_filename)
    (strSuffix original_filename) now_stamp 1 9998

/-- Embeds `get_target_file_path`: the unmodified name when free, otherwise the
collision-resolution loop. -/
def get_target_file_path (pexists : String → Bool)
    (target_folder original_filename now_stamp : String) : String × String :=
  let target_file_path := pathJoin target_folder original_filename
  if !pexists target_file_path then (target_file_path, original_filename)
  else create_unique_filename pexists target_folder original_filename now_stamp

/-! ### Processing state manager (`modules/processing_state_manager.py`) -/

/-- The persisted `ProcessingState` record; `last_run_timestamp` is stored as
an ISO string in Python and modelled directly as a datetime. -/
structure ProcState where
  last_run_timestamp : PyDateTime
  last_processed_file : String
  last_processed_date : String
  total_files_processed : Nat
  total_videos_analyzed : Nat
deriving DecidableEq, Repr

/-- The options the state manager reads (`enable_incremental_processing`
defaults to true when absent from the configuration). -/
structure StateOptions where
  enable_incremental_processing : Bool
deriving DecidableEq, Repr

/-- The target folder structure consulted by the state manager: for each
`target_paths` entry its `path_type` key and the names of the immediate
subdirectories actually present (nonexistent roots contribute `[]`). -/
def TargetFolderStructure : Type := List (String × List String)

/-- The composite file identity `path|size|isoTimestamp`. -/
def file_identity (fi : FileInfo) : String :=
  fi.path ++ "|" ++ toString fi.size ++ "|" ++ isoStr fi.date

/-- Embeds `_validate_last_run_against_folders`: look for a folder named after the
calendar day of the last run under any target root (prefix match with an
underscore for the Wudan root, exact equality otherwise). -/
def validate_last_run_against_folders (st : ProcState)
    (tf : TargetFolderStructure) : Bool :=
  let expected_folder := formatYMDUnderscore st.last_run_timestamp
  tf.any (fun pr =>
    pr.2.any (fun item =>
      if pr.1 == "wudan" then (expected_folder ++ "_").data.isPrefixOf item.data
      else item == expected_folder))

/-- Embeds `_parse_date_from_folder_name`: split on `_`, require exactly three parts
for regular roots and at least three for the Wudan root, convert with
`int(...)` and construct a `date` (invalid values raise and yield `none`). -/
def parse_date_from_folder_name (folder_name path_type : String) : Option PyDate :=
  let parts := splitOnChar '_' folder_name
  let build : Option PyDate :=
    match parseIntStr (parts.getD 0 ""), parseIntStr (parts.getD 1 ""),
        parseIntStr (parts.getD 2 "") with
    | some y, some m, some d =>
      if 0 ≤ y ∧ 0 ≤ m ∧ 0 ≤ d ∧ validDateTime y.toNat m.toNat d.toNat 0 0 0 then
        some ⟨y.toNat, m.toNat, d.toNat⟩
      else none
    | _, _, _ => none
  if path_type == "wudan" then
    if parts.length ≥ 3 then build else none
  else
    if parts.length == 3 then build else none

/-- The accumulator step of `_determine_last_process_date_from_folders`:
keep the later of the current latest and a newly parsed folder date. -/
def latestStep (latest : Option PyDate) (folder_date : PyDate) : Option PyDate :=
  match latest with
  | none => some folder_date
  | some l => if dateLtB l folder_date then some folder_date else latest

/-- Embeds `_determine_last_process_date_from_folders`: the most recent date parsed
from any matching folder name across all target roots. -/
def determine_last_process_date_from_folders (tf : TargetFolderStructure) :
    Option PyDate :=
  tf.foldl (fun latest pr =>
    pr.2.foldl (fun latest item =>
      match parse_date_from_folder_name item pr.1 with
      | some folder_date => latestStep latest folder_date
      | none => latest) latest) none

/-- All folder dates that `_determine_last_process_date_from_folders`
parses, in scan order. -/
def parsedFolderDates (tf : TargetFolderStructure) : List PyDate :=
  tf.flatMap (fun pr => pr.2.filterMap (fun item => parse_date_from_folder_name item pr.1))

/-- Embeds `should_process_file`. -/
def should_process_file (opts : StateOptions) (current_state : Option ProcState)
    (processed_files : List String) (tf : TargetFolderStructure) (fi : FileInfo) :
    Bool :=
  let file_id := file_identity fi
  if file_id ∈ processed_files then false
  else
    match current_state with
    | some st =>
      if opts.enable_incremental_processing then
        if validate_last_run_against_folders st tf then
          if dtLeB fi.date st.last_run_timestamp then false else true
        else
          match determine_last_process_date_from_folders tf with
          | some last_folder_date =>
            if dateLeB fi.date.dateOf last_folder_date then false else true
          | none => true
      else true
    | none => true

/-- The statistics dictionary passed to `finish_processing_run`. -/
structure RunStats where
  last_processed_file : String
  files_processed : Nat
  videos_analyzed : Nat
deriving DecidableEq, Repr

/-- Embeds `finish_processing_run`: build the new `ProcessingState` snapshot from
the statistics of the current run.  The previous state (`prior`) is what
`self.current_state` holds on entry; the assignment replaces it wholesale. -/
def finish_processing_run (prior : Option ProcState) (stats : RunStats)
    (now : PyDateTime) : ProcState :=
  { last_run_timestamp := now
    last_processed_file := stats.last_processed_file
    last_processed_date := padNum 4 now.year ++ "-" ++ padNum 2 now.month ++ "-" ++
      padNum 2 now.day
    total_files_processed := stats.files_processed
    total_videos_analyzed := stats.videos_analyzed }

/-! ### Fast batch processor (`modules/fast_batch_processor.py`) -/

/-- Embeds `find_files_needing_processing`: set difference of the `filename|size`
inventory keys. -/
def find_files_needing_processing (source_files target_files : Finset String) :
    Finset String :=
  source_files \ target_files

/-! ### Concrete fixtures used by witnesses and counterexamples -/

/-- Dedup options with deduplication on and forced recopy off. -/
def optsPlain : DedupOptions := ⟨true, false⟩

/-- A reference timestamp. -/
def dRef : PyDateTime := ⟨2025, 4, 12, 10, 0, 0⟩

/-- Cached target file carrying an appended descriptive suffix. -/
def entrySuffixed : CacheEntry :=
  ⟨"20250412_292993_1_KungFu_GimStyle.mp4", 5000,
    "/T/2025_04_12/20250412_292993_1_KungFu_GimStyle.mp4", dRef,
    "/T/2025_04_12", some "2025_04_12", "2025_04_12"⟩

/-- Cached target file whose trailing counter differs (`_2`). -/
def entryOtherCounter : CacheEntry :=
  ⟨"20250412_292993_2.mp4", 5000, "/T/2025_04_12/20250412_292993_2.mp4", dRef,
    "/T/2025_04_12", some "2025_04_12", "2025_04_12"⟩

/-- Cached suffixed target file of the wrong size. -/
def entryWrongSize : CacheEntry :=
  ⟨"20250412_292993_1_KungFu_GimStyle.mp4", 4999, "/T/2025_04_12/x.mp4", dRef,
    "/T/2025_04_12", some "2025_04_12", "2025_04_12"⟩

/-- Cached same-named target file of the wrong size. -/
def entrySameName4999 : CacheEntry :=
  ⟨"20250412_292993_1.mp4", 4999, "/T/2025_04_12/y.mp4", dRef,
    "/T/2025_04_12", some "2025_04_12", "2025_04_12"⟩

/-- Cached target file whose stem extends the date prefix with a letter, not
an underscore (`…_1x`). -/
def entryLetterTail : CacheEntry :=
  ⟨"20250412_292993_1x.mp4", 5000, "/T/2025_04_12/20250412_292993_1x.mp4", dRef,
    "/T/2025_04_12", some "2025_04_12", "2025_04_12"⟩

/-- Parsed Wudan rules: epoch 1 allows Monday 05:00–08:00, epoch 2 allows
Sunday 10:00–12:00. -/
def rulesDemo : ParsedRules :=
  ⟨[1], [(⟨5, 0, 0⟩, ⟨8, 0, 0⟩)], [0], [(0, [(⟨10, 0, 0⟩, ⟨12, 0, 0⟩)])]⟩

/-- Target roots for the resolver fixtures. -/
def pathsDemo : TargetPaths := ⟨"/T/Pictures", "/T/Videos", "/T/Wudan"⟩

/-- Recognized extensions for the resolver fixtures. -/
def extsDemo : FileExtensions := ⟨[".jpg"], [".mp4"]⟩

/-- A Sunday-morning video (2025-04-06 is a Sunday), routed to Wudan by
`rulesDemo`. -/
def fiSunday : FileInfo :=
  ⟨"/s/20250406_110016_1.mp4", "20250406_110016_1.mp4", ".mp4", "video", 5000,
    ⟨2025, 4, 6, 11, 0, 16⟩⟩

/-- Directory listing with the Wudan date folder for 2025-04-06 present. -/
def listdirDemo (base : String) : List String :=
  if base == "/T/Wudan" then ["2025_04_06_Sun"] else []

/-- Cache entry for the same video already organized under the standard
videos root (directory pattern `2025_04_06`, no weekday suffix). -/
def entryVideosSide : CacheEntry :=
  ⟨"20250406_110016_1_KungFu.mp4", 5000,
    "/T/Videos/2025_04_06/20250406_110016_1_KungFu.mp4", dRef,
    "/T/Videos/2025_04_06", some "2025_04_06", "2025_04_06"⟩

/-- A persisted state whose last run was 2025-04-10 12:00. -/
def stDemo : ProcState := ⟨⟨2025, 4, 10, 12, 0, 0⟩, "last.mp4", "2025-04-10", 7, 3⟩

/-- A record dated strictly after the last run of `stDemo`. -/
def fiNewer : FileInfo :=
  ⟨"/s/a.mp4", "a.mp4", ".mp4", "video", 1, ⟨2025, 4, 11, 0, 0, 0⟩⟩

/-- A record dated before the last run of `stDemo`. -/
def fiOlder : FileInfo :=
  ⟨"/s/b.mp4", "b.mp4", ".mp4", "video", 2, ⟨2025, 4, 9, 8, 0, 0⟩⟩

/-- Folder structure that contains the date folder of `stDemo`. -/
def tfValid : TargetFolderStructure := [("videos", ["2025_04_10"])]

/-- Folder structure without the date folder of `stDemo`: the newest parseable
date folder is the Wudan folder for 2025-04-09. -/
def tfStale : TargetFolderStructure :=
  [("videos", ["2025_04_08", "junk"]), ("wudan", ["2025_04_09_Wed"])]

/-- A prior persisted state with lifetime-looking counters. -/
def priorState : ProcState := ⟨⟨2025, 4, 1, 9, 0, 0⟩, "old.mp4", "2025-04-01", 10, 5⟩

/-- Statistics of a run that processed two files and analyzed one video. -/
def statsSmall : RunStats := ⟨"new.mp4", 2, 1⟩

/-- A Wudan configuration violating both validation duties: weekday `7` and
the unparseable time string `"banana"`. -/
def cfgBad : WudanRulesConfig :=
  ⟨⟨[7], [⟨"banana", "07:00"⟩]⟩, ⟨[0], [("0", [⟨"10:00", "12:00"⟩])]⟩⟩

/-- The probed collision name `stem_k.ext` for attempt `k`. -/
def probe_filename (original : String) (k : Nat) : String :=
  strStem original ++ "_" ++ toString k ++ strSuffix original

/-! ## Order lemmas for the datetime model -/

theorem dtLeB_eq_false_iff (a b : PyDateTime) :
    dtLeB a b = false ↔ dtLtB b a = true := by
  cases a; cases b
  simp only [dtLeB, dtLtB, Bool.or_eq_false_iff, Bool.or_eq_true,
    Bool.and_eq_false_iff, Bool.and_eq_true, decide_eq_false_iff_not,
    decide_eq_true_eq, PyDateTime.mk.injEq]
  omega

theorem dateLeB_eq_false_iff (a b : PyDate) :
    dateLeB a b = false ↔ dateLtB b a = true := by
  cases a; cases b
  simp only [dateLeB, dateLtB, Bool.or_eq_false_iff, Bool.or_eq_true,
    Bool.and_eq_false_iff, Bool.and_eq_true, decide_eq_false_iff_not,
    decide_eq_true_eq, PyDate.mk.injEq]
  omega

theorem dateLtB_eq_false_iff (a b : PyDate) :
    dateLtB a b = false ↔ dateLeB b a = true := by
  cases hd : dateLeB b a
  · rw [dateLeB_eq_false_iff] at hd
    simp [hd]
  · constructor
    · intro; rfl
    · intro _
      cases hlt : dateLtB a b
      · rfl
      · exfalso
        revert hd hlt
        cases a; cases b
        simp only [dateLeB, dateLtB, Bool.or_eq_true, Bool.and_eq_true,
          decide_eq_true_eq, PyDate.mk.injEq]
        omega

theorem dateLtB_le (a b : PyDate) (h : dateLtB a b = true) : dateLeB a b = true := by
  simp [dateLeB, h]

theorem dateLeB_refl (a : PyDate) : dateLeB a a = true := by
  simp [dateLeB]

theorem dateLeB_trans (a b c : PyDate) (h1 : dateLeB a b = true)
    (h2 : dateLeB b c = true) : dateLeB a c = true := by
  cases a; cases b; cases c
  revert h1 h2
  simp only [dateLeB, dateLtB, Bool.or_eq_true, Bool.and_eq_true,
    decide_eq_true_eq, PyDate.mk.injEq]
  omega

/-! ## Fold lemmas for the latest-folder-date computation -/

theorem latestStep_isSome (acc : Option PyDate) (d : PyDate) :
    (latestStep acc d).isSome = true := by
  cases acc with
  | none => rfl
  | some l =>
    simp only [latestStep]
    cases dateLtB l d <;> simp

theorem foldl_latestStep_none_iff (l : List PyDate) :
    ∀ acc : Option PyDate, l.foldl latestStep acc = none ↔ l = [] ∧ acc = none := by
  induction l with
  | nil => intro acc; simp
  | cons a l ih =>
    intro acc
    simp only [List.foldl_cons]
    rw [ih (latestStep acc a)]
    have h := latestStep_isSome acc a
    constructor
    · rintro ⟨-, h2⟩
      rw [h2] at h
      simp at h
    · rintro ⟨h1, -⟩
      exact absurd h1 (List.cons_ne_nil a l)

theorem foldl_latestStep_spec (l : List PyDate) :
    ∀ (acc : Option PyDate) (m : PyDate), l.foldl latestStep acc = some m →
      (m ∈ l ∨ acc = some m) ∧ (∀ x ∈ l, dateLeB x m = true) ∧
        (∀ a, acc = some a → dateLeB a m = true) := by
  induction l with
  | nil =>
    intro acc m h
    simp only [List.foldl_nil] at h
    exact ⟨Or.inr h, by simp, fun a ha => by rw [ha] at h; cases h; exact dateLeB_refl m⟩
  | cons b l ih =>
    intro acc m h
    simp only [List.foldl_cons] at h
    obtain ⟨hmem, hall, hacc⟩ := ih (latestStep acc b) m h
    have hb : dateLeB b m = true := by
      cases hc : acc with
      | none =>
        apply hacc
        rw [hc]; rfl
      | some l0 =>
        have := hacc
        rw [hc] at this
        simp only [latestStep] at this
        cases hlt : dateLtB l0 b with
        | true => exact this b (by rw [hlt]; rfl)
        | false =>
          have hl0 : dateLeB l0 m = true := this l0 (by rw [hlt]; rfl)
          have hble : dateLeB b l0 = true := (dateLtB_eq_false_iff l0 b).mp hlt
          exact dateLeB_trans b l0 m hble hl0
    refine ⟨?_, ?_, ?_⟩
    · rcases hmem with hm | hm
      · exact Or.inl (List.mem_cons_of_mem b hm)
      · cases hc : acc with
        | none =>
          rw [hc] at hm
          simp only [latestStep] at hm
          cases hm
          exact Or.inl (List.mem_cons_self b l)
        | some l0 =>
          rw [hc] at hm
          simp only [latestStep] at hm
          cases hlt : dateLtB l0 b with
          | true =>
            rw [hlt] at hm
            simp at hm
            cases hm
            exact Or.inl (List.mem_cons_self b l)
          | false =>
            rw [hlt] at hm
            simp at hm
            exact Or.inr (by rw [hm])
    · intro x hx
      rcases List.mem_cons.mp hx with hx | hx
      · rw [hx]; exact hb
      · exact hall x hx
    · intro a ha
      cases hlt : dateLtB a b with
      | true =>
        exact dateLeB_trans a b m (dateLtB_le a b hlt) hb
      | false =>
        apply hacc
        rw [ha]
        simp [latestStep, hlt]

theorem foldl_match_filterMap {α : Type} (f : α → Option PyDate) (l : List α) :
    ∀ acc : Option PyDate,
      l.foldl (fun latest a =>
        match f a with
        | some fd => latestStep latest fd
        | none => latest) acc = (l.filterMap f).foldl latestStep acc := by
  induction l with
  | nil => intro acc; simp
  | cons a l ih =>
    intro acc
    simp only [List.foldl_cons, List.filterMap_cons]
    cases hf : f a with
    | none => exact ih acc
    | some fd => simp only [List.foldl_cons]; exact ih (latestStep acc fd)

theorem determine_eq_foldl (tf : TargetFolderStructure) :
    ∀ acc : Option PyDate,
      tf.foldl (fun latest pr =>
        pr.2.foldl (fun latest item =>
          match parse_date_from_folder_name item pr.1 with
          | some folder_date => latestStep latest folder_date
          | none => latest) latest) acc =
      (parsedFolderDates tf).foldl latestStep acc := by
  induction tf with
  | nil => intro acc; simp [parsedFolderDates]
  | cons pr tf ih =>
    intro acc
    have hpf : parsedFolderDates (pr :: tf) =
        pr.2.filterMap (fun item => parse_date_from_folder_name item pr.1) ++
          parsedFolderDates tf := by
      simp [parsedFolderDates]
    rw [List.foldl_cons, hpf, List.foldl_append, ih, foldl_match_filterMap]

theorem determine_spec (tf : TargetFolderStructure) :
    determine_last_process_date_from_folders tf =
      (parsedFolderDates tf).foldl latestStep none := by
  exact determine_eq_foldl tf none

/-! ## Lemmas about the flexible dedup match -/

theorem exists_scan_true_mem (opts : DedupOptions) (expected : Option String)
    (target_directory : String) (file_date : PyDateTime) :
    ∀ l : List CacheEntry,
      exists_scan opts expected target_directory file_date l = true → ∃ e, e ∈ l := by
  intro l
  induction l with
  | nil => intro h; cases h
  | cons e rest ih =>
    intro h
    rw [exists_scan] at h
    by_cases hm : dedup_match_found expected target_directory e = true
    · exact ⟨e, List.mem_cons_self e rest⟩
    · rw [if_neg hm] at h
      obtain ⟨x, hx⟩ := ih h
      exact ⟨x, List.mem_cons_of_mem e hx⟩

theorem fmf_necessary (s t b : String)
    (h : filenames_match_flexible s t b = true) :
    stemL t.data = stemL s.data ∨ stemL t.data = b.data ∨
      b.data ++ ['_'] <+: stemL t.data := by
  rw [filenames_match_flexible] at h
  by_cases h1 : (stemL s.data == stemL t.data) = true
  · exact Or.inl (beq_iff_eq.mp h1).symm
  · rw [Bool.not_eq_true] at h1
    rw [h1] at h
    simp only [Bool.false_eq_true, if_false] at h
    by_cases h2 : b.data.isPrefixOf (stemL t.data) = true
    · rw [if_pos h2] at h
      obtain ⟨u, hu⟩ := List.isPrefixOf_iff_prefix.mp h2
      have hdrop : (stemL t.data).drop b.data.length = u := by
        rw [← hu]; exact List.drop_left b.data u
      rw [hdrop] at h
      cases u with
      | nil => exact Or.inr (Or.inl (by rw [← hu]; simp))
      | cons c r =>
        simp only [startsWithUnderscore, List.cons_ne_nil, beq_iff_eq,
          Bool.or_eq_true, decide_eq_true_eq] at h
        rcases h with h | h
        · refine Or.inr (Or.inr ⟨r, ?_⟩)
          rw [List.append_assoc, List.singleton_append, ← h]
          exact hu
        · cases h
    · rw [if_neg h2] at h
      cases h

/-! ## C1 -/

/-- C1 (amended): whenever `file_exists_in_target` reports a candidate as
already existing, some cached entry has exactly the candidate byte size and
its name minus extension equals the candidate name minus extension, equals
the candidate base pattern, or extends the base pattern after an
underscore; moreover the suffixed same-size target
`20250412_292993_1_KungFu_GimStyle.mp4` in a same-date folder matches
candidate `20250412_292993_1.mp4` (size 5000), while `20250412_292993_2.mp4`
(no underscore boundary) and same-pattern files of size 4999 do not. -/
theorem flexible_dedup_characterization :
    (∀ (opts : DedupOptions) (cache : List CacheEntry) (filename : String)
      (file_size : Nat) (file_date : PyDateTime) (target_directory : String),
      file_exists_in_target opts cache filename file_size file_date
        target_directory = true →
      ∃ e ∈ cache, e.size = file_size ∧
        (stemL e.filename.data = stemL filename.data ∨
         stemL e.filename.data = (extract_base_filename_pattern filename).data ∨
         (extract_base_filename_pattern filename).data ++ ['_'] <+:
           stemL e.filename.data)) ∧
    file_exists_in_target optsPlain [entrySuffixed] "20250412_292993_1.mp4"
      5000 dRef "/T/2025_04_12" = true ∧
    file_exists_in_target optsPlain [entryOtherCounter] "20250412_292993_1.mp4"
      5000 dRef "/T/2025_04_12" = false ∧
    file_exists_in_target optsPlain [entryWrongSize] "20250412_292993_1.mp4"
      5000 dRef "/T/2025_04_12" = false ∧
    file_exists_in_target optsPlain [entrySameName4999] "20250412_292993_1.mp4"
      5000 dRef "/T/2025_04_12" = false := by
  refine ⟨?_, by decide, by decide, by decide, by decide⟩
  intro opts cache filename file_size file_date target_directory h
  rw [file_exists_in_target] at h
  cases henable : opts.enable_deduplication with
  | false => rw [henable] at h; simp at h
  | true =>
    rw [henable] at h
    simp only [Bool.not_true, Bool.false_eq_true, if_false] at h
    split at h
    · cases h
    · obtain ⟨e, he⟩ := exists_scan_true_mem _ _ _ _ _ h
      rcases List.mem_append.mp he with hmem | hmem
      · obtain ⟨hc, hp⟩ := List.mem_filter.mp hmem
        simp only [Bool.and_eq_true, beq_iff_eq] at hp
        exact ⟨e, hc, hp.2, Or.inl (by rw [hp.1])⟩
      · rw [find_flexible_filename_matches] at hmem
        split at hmem
        · cases hmem
        · obtain ⟨hc, hp⟩ := List.mem_filter.mp hmem
          simp only [Bool.and_eq_true, beq_iff_eq] at hp
          exact ⟨e, hc, hp.1, fmf_necessary filename e.filename _ hp.2⟩

/-- C1 witness: the universal part applied to the suffixed-target example. -/
theorem flexible_dedup_characterization_witness :
    ∃ e ∈ [entrySuffixed], e.size = 5000 ∧
      (stemL e.filename.data = stemL "20250412_292993_1.mp4".data ∨
       stemL e.filename.data =
         (extract_base_filename_pattern "20250412_292993_1.mp4").data ∨
       (extract_base_filename_pattern "20250412_292993_1.mp4").data ++ ['_'] <+:
         stemL e.filename.data) :=
  flexible_dedup_characterization.1 optsPlain [entrySuffixed]
    "20250412_292993_1.mp4" 5000 dRef "/T/2025_04_12" (by decide)

/-- C1 counterexample: an exact same-name, same-size cached copy of
`20250412_292993_1x.mp4` makes `file_exists_in_target` report true, yet its
name minus extension neither equals the candidate base pattern
`20250412_292993_1` nor extends it with an underscore-separated suffix — the
stated only-when condition of the claim fails. -/
theorem flexible_dedup_claim_false :
    file_exists_in_target optsPlain [entryLetterTail] "20250412_292993_1x.mp4"
        5000 dRef "/T/2025_04_12" = true ∧
      entryLetterTail.size = 5000 ∧
      extract_base_filename_pattern "20250412_292993_1x.mp4" =
        "20250412_292993_1" ∧
      ¬(stemL entryLetterTail.filename.data =
          (extract_base_filename_pattern "20250412_292993_1x.mp4").data) ∧
      ¬((extract_base_filename_pattern "20250412_292993_1x.mp4").data ++ ['_'] <+:
          stemL entryLetterTail.filename.data) := by
  refine ⟨by decide, by decide, by decide, by decide, ?_⟩
  decide

/-! ## C10 -/

/-- C10: with `enable_deduplication` off, `file_exists_in_target` returns
false for every candidate, size, date and target directory, whatever the
cache holds. -/
theorem dedup_disabled_never_exists (opts : DedupOptions) (cache : List CacheEntry)
    (filename : String) (file_size : Nat) (file_date : PyDateTime)
    (target_directory : String) (h : opts.enable_deduplication = false) :
    file_exists_in_target opts cache filename file_size file_date target_directory
      = false := by
  simp [file_exists_in_target, h]

/-- C10 witness: a populated cache is ignored when deduplication is off. -/
theorem dedup_disabled_never_exists_witness :
    file_exists_in_target ⟨false, true⟩ [entrySuffixed] "20250412_292993_1.mp4"
      5000 dRef "/T/2025_04_12" = false :=
  dedup_disabled_never_exists ⟨false, true⟩ [entrySuffixed]
    "20250412_292993_1.mp4" 5000 dRef "/T/2025_04_12" rfl

/-! ## C2 -/

/-- C2: a record whose composite identity `path|size|isoTimestamp` is in the
persisted set is never processed, whatever the state and folders say; and
with incremental processing enabled (its default), persisted state present
and the last-run marker validating against the target folder structure, a
record is processed exactly when its date is strictly after
`last_run_timestamp`. -/
theorem should_process_order_and_valid_rule :
    (∀ (opts : StateOptions) (current_state : Option ProcState)
      (processed : List String) (tf : TargetFolderStructure) (fi : FileInfo),
      file_identity fi ∈ processed →
      should_process_file opts current_state processed tf fi = false) ∧
    (∀ (opts : StateOptions) (st : ProcState) (processed : List String)
      (tf : TargetFolderStructure) (fi : FileInfo),
      opts.enable_incremental_processing = true →
      file_identity fi ∉ processed →
      validate_last_run_against_folders st tf = true →
      (should_process_file opts (some st) processed tf fi = true ↔
        dtLtB st.last_run_timestamp fi.date = true)) := by
  constructor
  · intro opts current_state processed tf fi h
    rw [should_process_file.eq_def]
    simp only [if_pos h]
  · intro opts st processed tf fi h1 h2 h3
    rw [should_process_file]
    rw [if_neg h2]
    simp only [h1, h3, if_true]
    cases hle : dtLeB fi.date st.last_run_timestamp with
    | true =>
      simp only [if_true, Bool.false_eq_true, false_iff]
      intro hlt
      rw [← dtLeB_eq_false_iff] at hlt
      rw [hle] at hlt
      cases hlt
    | false =>
      simp only [Bool.false_eq_true, if_false, true_iff]
      exact (dtLeB_eq_false_iff fi.date st.last_run_timestamp).mp hle

/-- C2 witness: with a validating marker (folder `2025_04_10` present), a
record dated 2025-04-11 is processed. -/
theorem should_process_order_and_valid_rule_witness :
    should_process_file ⟨true⟩ (some stDemo) [] tfValid fiNewer = true :=
  (should_process_order_and_valid_rule.2 ⟨true⟩ stDemo [] tfValid fiNewer rfl
    (by decide) (by decide)).mpr (by decide)

/-! ## C3 -/

/-- C3: when persisted state exists but its marker folder is found nowhere,
the effective cutoff is the maximum date parsed from the matching date-folder
names across all target roots — a record is processed exactly when its
calendar day is strictly after that cutoff day, and when no folder parses to
a date at all every record is processed. -/
theorem stale_marker_fallback :
    (∀ (opts : StateOptions) (st : ProcState) (processed : List String)
      (tf : TargetFolderStructure) (fi : FileInfo),
      opts.enable_incremental_processing = true →
      file_identity fi ∉ processed →
      validate_last_run_against_folders st tf = false →
      ((∀ cutoff, determine_last_process_date_from_folders tf = some cutoff →
          (should_process_file opts (some st) processed tf fi = true ↔
            dateLtB cutoff fi.date.dateOf = true)) ∧
        (determine_last_process_date_from_folders tf = none →
          should_process_file opts (some st) processed tf fi = true))) ∧
    (∀ (tf : TargetFolderStructure) (m : PyDate),
      determine_last_process_date_from_folders tf = some m →
      m ∈ parsedFolderDates tf ∧ ∀ x ∈ parsedFolderDates tf, dateLeB x m = true) ∧
    (∀ tf : TargetFolderStructure,
      determine_last_process_date_from_folders tf = none ↔
        parsedFolderDates tf = []) := by
  refine ⟨?_, ?_, ?_⟩
  · intro opts st processed tf fi h1 h2 h3
    constructor
    · intro cutoff hdet
      rw [should_process_file, if_neg h2]
      simp only [h1, h3, if_true, Bool.false_eq_true, if_false, hdet]
      cases hle : dateLeB fi.date.dateOf cutoff with
      | true =>
        simp only [if_true, Bool.false_eq_true, false_iff]
        intro hlt
        rw [← dateLeB_eq_false_iff] at hlt
        rw [hle] at hlt
        cases hlt
      | false =>
        simp only [Bool.false_eq_true, if_false, true_iff]
        exact (dateLeB_eq_false_iff fi.date.dateOf cutoff).mp hle
    · intro hdet
      rw [should_process_file, if_neg h2]
      simp only [h1, h3, if_true, Bool.false_eq_true, if_false, hdet]
  · intro tf m h
    rw [determine_spec] at h
    obtain ⟨hmem, hall, -⟩ := foldl_latestStep_spec (parsedFolderDates tf) none m h
    rcases hmem with hmem | hmem
    · exact ⟨hmem, hall⟩
    · cases hmem
  · intro tf
    rw [determine_spec, foldl_latestStep_none_iff]
    simp

/-- C3 witness: with a stale marker (no folder for 2025-04-10), the newest
folder date 2025-04-09 becomes the cutoff and a 2025-04-11 record is
processed. -/
theorem stale_marker_fallback_witness :
    should_process_file ⟨true⟩ (some stDemo) [] tfStale fiNewer = true :=
  ((stale_marker_fallback.1 ⟨true⟩ stDemo [] tfStale fiNewer rfl (by decide)
    (by decide)).1 ⟨2025, 4, 9⟩ (by decide)).mpr (by decide)

/-! ## C5 -/

/-- C5: reconciliation is idempotent — once every key in
`sourceKeys \ targetKeys` has been copied into the target (so the rebuilt
target inventory contains the old keys and the copied ones), recomputing
`find_files_needing_processing` on the unchanged source yields `∅`. -/
theorem reconciliation_idempotent (source_files target_files rebuilt : Finset String)
    (h : target_files ∪ find_files_needing_processing source_files target_files
      ⊆ rebuilt) :
    find_files_needing_processing source_files rebuilt = ∅ := by
  rw [find_files_needing_processing, Finset.sdiff_eq_empty_iff_subset]
  rw [find_files_needing_processing, Finset.union_sdiff_self_eq_union] at h
  exact (Finset.subset_union_right).trans h

/-- C5 witness: a two-file source with one file already present copies one
key; the immediately rebuilt inventory leaves nothing to do. -/
theorem reconciliation_idempotent_witness :
    find_files_needing_processing {"a.mp4|1", "b.mp4|2"}
      ({"b.mp4|2"} ∪ find_files_needing_processing {"a.mp4|1", "b.mp4|2"}
        {"b.mp4|2"}) = ∅ :=
  reconciliation_idempotent {"a.mp4|1", "b.mp4|2"} {"b.mp4|2"}
    ({"b.mp4|2"} ∪ find_files_needing_processing {"a.mp4|1", "b.mp4|2"}
      {"b.mp4|2"}) (Finset.Subset.refl _)

/-! ## C4 -/

/-- C4 (amended): a video routed to the Wudan subtree gets the
weekday-suffixed expected date-pattern `YYYY_MM_DD_<3-letter-weekday>` for
folder resolution; the deduplication directory-agreement check, however,
compares only the `YYYY_MM_DD` patterns extracted from the two directory
names (with directory equality as the fallback when either extraction
fails), so the weekday suffix is stripped there rather than participating. -/
theorem wudan_pattern_resolution_and_dedup_key :
    (∀ (paths : TargetPaths) (exts : FileExtensions) (rules : ParsedRules)
      (listdirOf : String → List String) (fi : FileInfo),
      fi.ftype = "video" → fi.extension ∈ exts.videos →
      should_go_to_wudan_folder rules fi.date = true →
      get_target_folder_path paths exts rules listdirOf fi =
        some ((find_existing_date_folder (listdirOf paths.wudan) paths.wudan
          (wudan_date_pattern fi.date)).getD
            (pathJoin paths.wudan (wudan_date_pattern fi.date)))) ∧
    (∀ (expected : Option String) (target_directory : String) (e : CacheEntry),
      dedup_match_found expected target_directory e = true →
      (∃ p, expected = some p ∧ e.date_pattern = some p) ∨
        e.directory = target_directory) ∧
    wudan_date_pattern ⟨2025, 4, 6, 11, 0, 16⟩ = "2025_04_06_Sun" ∧
    extract_date_pattern "2025_04_06_Sun" = some "2025_04_06" := by
  refine ⟨?_, ?_, by decide, by decide⟩
  · intro paths exts rules listdirOf fi hft hext hgo
    have hbase : determine_base_path paths exts rules fi.ftype fi.extension fi.date
        = some paths.wudan := by
      rw [determine_base_path, hft]
      rw [if_neg (by decide)]
      rw [if_pos (show (("video" : String) == "video") = true by decide)]
      rw [if_pos hext, hgo]
      simp
    rw [get_target_folder_path, hbase]
    simp only []
    rw [if_pos (beq_self_eq_true paths.wudan)]
    cases hf : find_existing_date_folder (listdirOf paths.wudan) paths.wudan
        (wudan_date_pattern fi.date) with
    | some f => simp [hf]
    | none => simp [hf]
  · intro expected target_directory e h
    cases expected with
    | none =>
      rw [dedup_match_found] at h
      exact Or.inr (beq_iff_eq.mp h)
    | some p =>
      rw [dedup_match_found] at h
      cases hdp : e.date_pattern with
      | none =>
        simp only [hdp] at h
        exact Or.inr (beq_iff_eq.mp h)
      | some q =>
        simp only [hdp] at h
        exact Or.inl ⟨p, rfl, by rw [beq_iff_eq.mp h]⟩

/-- C4 witness: the resolver part applied to the Sunday-morning fixture. -/
theorem wudan_pattern_resolution_witness :
    get_target_folder_path pathsDemo extsDemo rulesDemo listdirDemo fiSunday =
      some ((find_existing_date_folder (listdirDemo pathsDemo.wudan)
        pathsDemo.wudan (wudan_date_pattern fiSunday.date)).getD
          (pathJoin pathsDemo.wudan (wudan_date_pattern fiSunday.date))) :=
  wudan_pattern_resolution_and_dedup_key.1 pathsDemo extsDemo rulesDemo
    listdirDemo fiSunday rfl (by decide) (by decide)

/-- C4 counterexample: the Sunday video resolves to the weekday-suffixed
Wudan folder `2025_04_06_Sun`, yet a cached copy whose directory pattern is
the plain `2025_04_06` (a different directory under the standard videos
root) is accepted as a date-pattern match — the weekday-suffixed string is
not the matching key, its weekday suffix is stripped. -/
theorem wudan_weekday_key_claim_false :
    get_target_folder_path pathsDemo extsDemo rulesDemo listdirDemo fiSunday =
        some "/T/Wudan/2025_04_06_Sun" ∧
      wudan_date_pattern fiSunday.date = "2025_04_06_Sun" ∧
      file_exists_in_target optsPlain [entryVideosSide] fiSunday.name 5000
        fiSunday.date "/T/Wudan/2025_04_06_Sun" = true ∧
      entryVideosSide.date_pattern ≠ some "2025_04_06_Sun" ∧
      entryVideosSide.directory ≠ "/T/Wudan/2025_04_06_Sun" := by
  refine ⟨by decide, by decide, by decide, by decide, by decide⟩

/-! ## C6 -/

/-- C6: the first pattern that both matches and survives validation decides
the extracted date (a syntactically matching but calendar-invalid capture
makes that pattern yield nothing and the scan move on), the extractor always
falls back to the modification time, and the three reference examples
behave as specified. -/
theorem filename_date_extraction :
    (∀ (filename : String) (d : PyDateTime) (ps₁ : List ScanPattern)
      (p : ScanPattern) (ps₂ : List ScanPattern),
      date_patterns = ps₁ ++ p :: ps₂ →
      (∀ q ∈ ps₁, try_pattern q filename = none) →
      try_pattern p filename = some d →
      extract_date_from_filename filename = some d) ∧
    (∀ (filename : String) (mtime : PyDateTime),
      extract_date_from_filename filename = none →
      extracted_file_date filename mtime = mtime) ∧
    (∀ (filename : String) (d : PyDateTime) (mtime : PyDateTime),
      extract_date_from_filename filename = some d →
      extracted_file_date filename mtime = d) ∧
    extract_date_from_filename "20250406_110016_1.mp4" =
      some ⟨2025, 4, 6, 11, 0, 16⟩ ∧
    extract_date_from_filename "M4H01890.MP4" = none ∧
    extract_date_from_filename "notadate_13_45.mp4" = none ∧
    pattern_search .p2 "2025_13_01_x_2025-04-06.jpg" =
      some ["2025", "13", "01"] ∧
    try_pattern .p2 "2025_13_01_x_2025-04-06.jpg" = none ∧
    extract_date_from_filename "2025_13_01_x_2025-04-06.jpg" =
      some ⟨2025, 4, 6, 0, 0, 0⟩ := by
  refine ⟨?_, ?_, ?_, by decide, by decide, by decide, by decide, by decide,
    by decide⟩
  · intro filename d ps₁ p ps₂ hsplit hnone hp
    rw [extract_date_from_filename, hsplit, List.findSome?_append,
      List.findSome?_eq_none_iff.mpr hnone, List.findSome?_cons, hp]
    rfl
  · intro filename mtime h
    rw [extracted_file_date, h]
    rfl
  · intro filename d mtime h
    rw [extracted_file_date, h]
    rfl

/-- C6 witness: the first-valid-pattern rule applied with the primary
pattern at the head of the list. -/
theorem filename_date_extraction_witness :
    extract_date_from_filename "20250622_100122.mp4" =
      some ⟨2025, 6, 22, 10, 1, 22⟩ :=
  filename_date_extraction.1 "20250622_100122.mp4" ⟨2025, 6, 22, 10, 1, 22⟩
    [] .p1 [.p2, .p3, .p4, .p5, .p6, .p7, .p8] rfl
    (fun q hq => absurd hq (List.not_mem_nil q)) (by decide)

/-! ## C8 -/

/-- C8 counterexample: a configuration with weekday `7` and the unparseable
time string `"banana"` does not stop the engine — initialization succeeds
(the bad range is silently dropped), so neither validation duty is enforced
at configuration-load time. -/
theorem rules_validation_claim_false :
    (wudan_engine_init cfgBad).isSome = true ∧
      (7 : Int) ∈ cfgBad.before_2021.days_of_week ∧ ¬((7 : Int) ≤ 6) ∧
      (⟨"banana", "07:00"⟩ : TimeRangeStr) ∈ cfgBad.before_2021.time_ranges ∧
      parse_time_string "banana" = none ∧
      wudan_engine_init cfgBad =
        some ⟨[7], [], [0], [(0, [(⟨10, 0, 0⟩, ⟨12, 0, 0⟩)])]⟩ := by
  refine ⟨by decide, by decide, by decide, by decide, by decide, by decide⟩

theorem parse_after_ranges_isSome (l : List (String × List TimeRangeStr))
    (h : ∀ pr ∈ l, (parseIntStr pr.1).isSome = true) :
    (parse_after_ranges l).isSome = true := by
  induction l with
  | nil => rfl
  | cons pr rest ih =>
    obtain ⟨dn, hdn⟩ := Option.isSome_iff_exists.mp
      (h pr (List.mem_cons_self pr rest))
    obtain ⟨r, hr⟩ := Option.isSome_iff_exists.mp
      (ih (fun q hq => h q (List.mem_cons_of_mem pr hq)))
    rw [parse_after_ranges, hdn, hr]
    rfl

/-- C8 (amended): the engine does not refuse to start on out-of-range
weekday values or unparseable time strings — construction succeeds whenever
the after-2021 day keys are integer strings, with unparseable time ranges
dropped; the separate `validate_rules_configuration` (which callers must
invoke themselves) does report each out-of-range weekday as an error string,
but never examines time strings. -/
theorem rules_validation_behavior :
    (∀ cfg : WudanRulesConfig,
      (∀ pr ∈ cfg.after_2021.time_ranges, (parseIntStr pr.1).isSome = true) →
      (wudan_engine_init cfg).isSome = true) ∧
    (∀ (cfg : WudanRulesConfig) (rules : ParsedRules),
      wudan_engine_init cfg = some rules →
      rules.before_ranges = cfg.before_2021.time_ranges.filterMap parseRangePair) ∧
    (∀ (cfg : WudanRulesConfig) (d : Int), d ∈ cfg.before_2021.days_of_week →
      d < 0 ∨ d > 6 →
      ("before_2021: Invalid day of week " ++ toString d ++ " (must be 0-6)")
        ∈ validate_rules_configuration cfg) ∧
    (∀ (cfg : WudanRulesConfig) (d : Int), d ∈ cfg.after_2021.days_of_week →
      d < 0 ∨ d > 6 →
      ("after_2021: Invalid day of week " ++ toString d ++ " (must be 0-6)")
        ∈ validate_rules_configuration cfg) := by
  refine ⟨?_, ?_, ?_, ?_⟩
  · intro cfg h
    obtain ⟨ar, har⟩ := Option.isSome_iff_exists.mp (parse_after_ranges_isSome _ h)
    rw [wudan_engine_init, parse_time_ranges, har]
    rfl
  · intro cfg rules h
    rw [wudan_engine_init, parse_time_ranges] at h
    cases har : parse_after_ranges cfg.after_2021.time_ranges with
    | none => rw [har] at h; cases h
    | some ar =>
      rw [har] at h
      cases h
      rfl
  · intro cfg d hd hrange
    rw [validate_rules_configuration]
    refine List.mem_append.mpr (Or.inl (List.mem_filterMap.mpr ⟨d, hd, ?_⟩))
    rw [if_pos hrange]
    rfl
  · intro cfg d hd hrange
    rw [validate_rules_configuration]
    refine List.mem_append.mpr (Or.inr (List.mem_filterMap.mpr ⟨d, hd, ?_⟩))
    rw [if_pos hrange]
    rfl

/-- C8 witness: the amended behavior on the bad configuration — it starts,
and the weekday error is reported only by the explicit validator. -/
theorem rules_validation_behavior_witness :
    (wudan_engine_init cfgBad).isSome = true ∧
      ("before_2021: Invalid day of week " ++ toString (7 : Int) ++
        " (must be 0-6)") ∈ validate_rules_configuration cfgBad :=
  ⟨rules_validation_behavior.1 cfgBad (by decide),
    rules_validation_behavior.2.2.1 cfgBad 7 (by decide) (by decide)⟩

/-! ## C9 -/

theorem create_unique_loop_finds (pexists : String → Bool)
    (folder base ext ns : String) :
    ∀ (fuel counter k : Nat), counter ≤ k → k ≤ counter + fuel →
      pexists (pathJoin folder (base ++ "_" ++ toString k ++ ext)) = false →
      (∀ j, counter ≤ j → j < k →
        pexists (pathJoin folder (base ++ "_" ++ toString j ++ ext)) = true) →
      create_unique_loop pexists folder base ext ns counter fuel =
        (pathJoin folder (base ++ "_" ++ toString k ++ ext),
          base ++ "_" ++ toString k ++ ext) := by
  intro fuel
  induction fuel with
  | zero =>
    intro counter k h1 h2 hfree _
    have hk : k = counter := by omega
    subst hk
    rw [create_unique_loop]
    simp [hfree]
  | succ fuel ih =>
    intro counter k h1 h2 hfree hall
    by_cases hk : counter = k
    · subst hk
      rw [create_unique_loop]
      simp [hfree]
    · have hcl : counter < k := lt_of_le_of_ne h1 hk
      have hpc := hall counter (Nat.le_refl counter) hcl
      rw [create_unique_loop]
      simp only [hpc, Bool.not_true, Bool.false_eq_true, if_false]
      exact ih (counter + 1) k (by omega) (by omega) hfree
        (fun j hj1 hj2 => hall j (by omega) hj2)

theorem create_unique_loop_exhausted (pexists : String → Bool)
    (folder base ext ns : String) :
    ∀ (fuel counter : Nat),
      (∀ j, counter ≤ j → j ≤ counter + fuel →
        pexists (pathJoin folder (base ++ "_" ++ toString j ++ ext)) = true) →
      create_unique_loop pexists folder base ext ns counter fuel =
        (pathJoin folder (base ++ "_" ++ ns ++ ext), base ++ "_" ++ ns ++ ext) := by
  intro fuel
  induction fuel with
  | zero =>
    intro counter hall
    have h := hall counter (Nat.le_refl counter) (by omega)
    rw [create_unique_loop]
    simp [h]
  | succ fuel ih =>
    intro counter hall
    have h := hall counter (Nat.le_refl counter) (by omega)
    rw [create_unique_loop]
    simp only [h, Bool.not_true, Bool.false_eq_true, if_false]
    exact ih (counter + 1) (fun j hj1 hj2 => hall j (by omega) (by omega))

/-- C9: collision resolution returns `folder/name` unchanged when that path
is free; otherwise it returns the first unused `name_k.ext` for
`k = 1, 2, …, 9999`, and when all 9999 probes are occupied it falls back to
the timestamp-suffixed name (so the always-terminating function never yields
an occupied probed name); two same-named files bound for one folder resolve
to `name.ext` then `name_1.ext`. -/
theorem collision_resolution :
    (∀ (pexists : String → Bool) (folder name ns : String),
      pexists (pathJoin folder name) = false →
      get_target_file_path pexists folder name ns = (pathJoin folder name, name)) ∧
    (∀ (pexists : String → Bool) (folder name ns : String) (k : Nat),
      1 ≤ k → k ≤ 9999 →
      pexists (pathJoin folder name) = true →
      pexists (pathJoin folder (probe_filename name k)) = false →
      (∀ j, 1 ≤ j → j < k →
        pexists (pathJoin folder (probe_filename name j)) = true) →
      get_target_file_path pexists folder name ns =
        (pathJoin folder (probe_filename name k), probe_filename name k)) ∧
    (∀ (pexists : String → Bool) (folder name ns : String),
      pexists (pathJoin folder name) = true →
      (∀ j, 1 ≤ j → j ≤ 9999 →
        pexists (pathJoin folder (probe_filename name j)) = true) →
      get_target_file_path pexists folder name ns =
        (pathJoin folder (strStem name ++ "_" ++ ns ++ strSuffix name),
          strStem name ++ "_" ++ ns ++ strSuffix name)) ∧
    get_target_file_path (fun _ => false) "/T" "name.ext" "ts" =
      ("/T/name.ext", "name.ext") ∧
    get_target_file_path (fun p => p == "/T/name.ext") "/T" "name.ext" "ts" =
      ("/T/name_1.ext", "name_1.ext") := by
  refine ⟨?_, ?_, ?_, by decide, by decide⟩
  · intro pexists folder name ns h
    rw [get_target_file_path]
    simp [h]
  · intro pexists folder name ns k hk1 hk2 hocc hfree hall
    rw [get_target_file_path]
    simp only [hocc, Bool.not_true, Bool.false_eq_true, if_false]
    rw [create_unique_filename]
    exact create_unique_loop_finds pexists folder (strStem name) (strSuffix name)
      ns 9998 1 k hk1 (by omega) hfree hall
  · intro pexists folder name ns hocc hall
    rw [get_target_file_path]
    simp only [hocc, Bool.not_true, Bool.false_eq_true, if_false]
    rw [create_unique_filename]
    exact create_unique_loop_exhausted pexists folder (strStem name)
      (strSuffix name) ns 9998 1 (fun j hj1 hj2 => hall j hj1 (by omega))

/-- C9 witness: with `a.mp4` and `a_1.mp4` occupied, the resolver yields the
first unused probe `a_2.mp4`. -/
theorem collision_resolution_witness :
    get_target_file_path
      (fun p => p == "/T/a.mp4" || p == "/T/a_1.mp4") "/T" "a.mp4" "ts" =
      ("/T/a_2.mp4", "a_2.mp4") :=
  collision_resolution.2.1
    (fun p => p == "/T/a.mp4" || p == "/T/a_1.mp4") "/T" "a.mp4" "ts" 2
    (by omega) (by omega) (by decide) (by decide)
    (fun j hj1 hj2 => by
      have : j = 1 := by omega
      subst this
      decide)

/-! ## C7 -/

/-- C7 counterexample: `finish_processing_run` stores the counts of the
current run, not the prior totals plus them — with prior totals 10/5
and a run of 2/1 the persisted counters are 2/1, not 12/6. -/
theorem counters_not_cumulative :
    (finish_processing_run (some priorState) statsSmall dRef).total_files_processed
        = 2 ∧
      priorState.total_files_processed = 10 ∧
      (finish_processing_run (some priorState) statsSmall dRef).total_files_processed
        ≠ 10 + 2 ∧
      (finish_processing_run (some priorState) statsSmall dRef).total_videos_analyzed
        ≠ 5 + 1 := by
  refine ⟨rfl, rfl, ?_, ?_⟩ <;> decide

/-- C7 amended: after `finish_processing_run` the stored counters equal the
counts of the run just finished, independent of any previously stored state
(the snapshot overwrites; nothing is accumulated). -/
theorem counters_equal_run_counts (prior prior' : Option ProcState)
    (stats : RunStats) (now : PyDateTime) :
    (finish_processing_run prior stats now).total_files_processed
        = stats.files_processed ∧
      (finish_processing_run prior stats now).total_videos_analyzed
        = stats.videos_analyzed ∧
      (finish_processing_run prior stats now).last_run_timestamp = now ∧
      finish_processing_run prior stats now = finish_processing_run prior' stats now :=
  ⟨rfl, rfl, rfl, rfl⟩

end PhoneSync
